import Mathlib

/-!
Verification of the Ledger device-session / batch-signing orchestrator
(`src/util/ledger/index.ts` of mytonwallet).

The embedding models the orchestration code of the file. External
collaborators (the `@ton/core` address/cell library, the ledger transport
library, and the backend `callApi` endpoints) are opaque in the source and
are modelled as oracle functions bundled in environment structures; thrown
JavaScript exceptions are modelled with `Except`, and the unbounded
`while` loops are driven by an explicit attempt budget exactly as the
source's `attempt < attempts` guard does (for the account-discovery scan,
whose source loop is `while (true)`, a fuel parameter is added and `none`
stands for a run that does not finish within the fuel).
-/

namespace MTW

/-- `const ATTEMPTS = 10` from the source. -/
def ATTEMPTS : Nat := 10

/-- `const PAUSE = 125` (milliseconds between connect / app-probe attempts). -/
def PAUSE : Nat := 125

/-- `const VERSION = 'v4R2'` from the source. -/
def VERSION : String := "v4R2"

/-- `StatusCodes.CONDITIONS_OF_USE_NOT_SATISFIED` from `@ledgerhq/errors`:
the device status word reported when the user declines on the device. -/
def CONDITIONS_OF_USE_NOT_SATISFIED : Nat := 0x6985

/-- `SendMode.PAY_GAS_SEPARATELY` from `@ton/core`. -/
def SendMode_PAY_GAS_SEPARATELY : Nat := 1

/-- `SendMode.IGNORE_ERRORS` from `@ton/core`. -/
def SendMode_IGNORE_ERRORS : Nat := 2

/-- `SendMode.CARRY_ALL_REMAINING_BALANCE` from `@ton/core`. -/
def SendMode_CARRY_ALL_REMAINING_BALANCE : Nat := 128

/-- `TONCOIN_SLUG` config constant (value is config glue; only its identity
matters here). -/
def TONCOIN_SLUG : String := "toncoin"

/-- The payload variants of an `ApiDappTransfer` handled by the `switch` in
`signLedgerTransactions`.  Addresses stay in their string form here (they are
parsed by the oracle `parseAddress` during normalization); cell blobs are
base64 strings.  `queryId`, amounts and forward amounts are the non-negative
integers the source coerces with `BigInt(...)`. -/
inductive ApiDappPayload
  | comment (comment : String)
  | nftTransfer (queryId : Nat) (newOwner : String) (responseDestination : String)
      (customPayload : Option String) (forwardAmount : Nat) (forwardPayload : Option String)
  | tokensTransfer (queryId : Nat) (amount : Nat) (destination : String)
      (responseDestination : String) (customPayload : Option String)
      (forwardAmount : Nat) (forwardPayload : Option String)
  | unknown
deriving DecidableEq

/-- One entry of the `messages: ApiDappTransfer[]` argument of
`signLedgerTransactions`: destination, amount, optional payload variant and
optional base64 state-init blob. -/
structure ApiDappTransfer where
  toAddress : String
  amount : Nat
  payload : Option ApiDappPayload
  stateInit : Option String
deriving DecidableEq

/-- The normalized `TonPayloadFormat` sent to the device
(`@ton-community/ton-ledger`).  Parsed addresses and decoded cells are opaque
strings produced by the library oracles. -/
inductive TonPayloadFormat
  | comment (text : String)
  | jettonTransfer (queryId : Nat) (amount : Nat) (destination : String)
      (responseDestination : String) (customPayload : Option String)
      (forwardAmount : Nat) (forwardPayload : Option String)
  | nftTransfer (queryId : Nat) (newOwner : String) (responseDestination : String)
      (customPayload : Option String) (forwardAmount : Nat) (forwardPayload : Option String)
deriving DecidableEq

/-- The canonical signing request the source builds for
`tonTransport.signTransaction`: one element of `preparedOptions` in
`signLedgerTransactions` (and, with `stateInit = none`, the request literal of
`submitLedgerTransfer`). -/
structure PreparedOption where
  toAddr : String
  sendMode : Nat
  seqno : Nat
  timeout : Nat
  bounce : Bool
  amount : Nat
  payload : Option TonPayloadFormat
  stateInit : Option String
deriving DecidableEq

/-- An `ApiSignedTransfer`: the base64 signed cell, its sequence number and
the user-facing display params the source attaches. -/
structure ApiSignedTransfer where
  base64 : String
  seqno : Nat
  amount : Nat
  fromAddress : String
  toAddress : String
  comment : Option String
  fee : Nat
  slug : String
deriving DecidableEq

/-- The exceptions `signLedgerTransactions` can throw:
`Error('Unsupported format')`, an address-parse error from `Address.parse`,
and `ApiUserRejectsError`. -/
inductive LedgerError
  | unsupportedFormat
  | invalidAddress
  | userRejected
deriving DecidableEq

/-- Outcome of one `tonTransport.signTransaction` call: the base64 of the
signed cell, or a thrown error carrying an optional numeric `statusCode`. -/
inductive SignOutcome
  | ok (base64 : String)
  | err (statusCode : Option Nat)
deriving DecidableEq

/-- Oracles for the opaque libraries `signLedgerTransactions` calls into:
`isValidLedgerComment` (from `./utils`), `Address.isFriendly`,
`Address.parseFriendly(..).isBounceable`, the `DEFAULT_IS_BOUNCEABLE` config
constant, `Address.parse` (`none` models a thrown parse error),
`Cell.fromBase64`, `loadStateInit` and `getTransferExpirationTime()` (whose
value depends on the ambient clock). -/
structure Ext where
  isValidLedgerComment : String → Bool
  isFriendly : String → Bool
  friendlyIsBounceable : String → Bool
  defaultIsBounceable : Bool
  parseAddress : String → Option String
  cellFromBase64 : String → String
  loadStateInit : String → String
  transferExpirationTime : Nat

/-- The payload `switch` of `signLedgerTransactions`: from a message, the
bounce flag and the normalized ledger payload, or the thrown error.
`isBounceable` starts from the friendly-form flag (or the default) and is
forced to `true` in the `nft:transfer` and `tokens:transfer` branches. -/
def normalizePayload (env : Ext) (message : ApiDappTransfer) :
    Except LedgerError (Bool × Option TonPayloadFormat) :=
  let isBounceable :=
    if env.isFriendly message.toAddress then env.friendlyIsBounceable message.toAddress
    else env.defaultIsBounceable
  match message.payload with
  | some (ApiDappPayload.comment comment) =>
      if env.isValidLedgerComment comment then
        Except.ok (isBounceable, some (TonPayloadFormat.comment comment))
      else Except.error LedgerError.unsupportedFormat
  | none => Except.ok (isBounceable, none)
  | some (ApiDappPayload.nftTransfer queryId newOwner responseDestination
      customPayload forwardAmount forwardPayload) =>
      match env.parseAddress newOwner, env.parseAddress responseDestination with
      | some no, some rd =>
          Except.ok (true, some (TonPayloadFormat.nftTransfer queryId no rd
            (customPayload.map env.cellFromBase64) forwardAmount
            (forwardPayload.map env.cellFromBase64)))
      | _, _ => Except.error LedgerError.invalidAddress
  | some (ApiDappPayload.tokensTransfer queryId jettonAmount destination
      responseDestination customPayload forwardAmount forwardPayload) =>
      match env.parseAddress destination, env.parseAddress responseDestination with
      | some dst, some rd =>
          Except.ok (true, some (TonPayloadFormat.jettonTransfer queryId jettonAmount dst rd
            (customPayload.map env.cellFromBase64) forwardAmount
            (forwardPayload.map env.cellFromBase64)))
      | _, _ => Except.error LedgerError.invalidAddress
  | some ApiDappPayload.unknown => Except.error LedgerError.unsupportedFormat

/-- Building one element of `preparedOptions` for the message at position
`index` of the batch: after the payload switch, the source decodes the
optional state init, parses the destination and assigns
`seqno: seqno + index`, `sendMode: PAY_GAS_SEPARATELY + IGNORE_ERRORS` and
the transfer expiration timestamp. -/
def prepareMessage (env : Ext) (seqno : Nat) (index : Nat) (message : ApiDappTransfer) :
    Except LedgerError PreparedOption :=
  match normalizePayload env message with
  | Except.error e => Except.error e
  | Except.ok (isBounceable, ledgerPayload) =>
      match env.parseAddress message.toAddress with
      | none => Except.error LedgerError.invalidAddress
      | some toAddr =>
          Except.ok ⟨toAddr, SendMode_PAY_GAS_SEPARATELY + SendMode_IGNORE_ERRORS,
            seqno + index, env.transferExpirationTime, isBounceable, message.amount,
            ledgerPayload,
            message.stateInit.map (fun s => env.loadStateInit (env.cellFromBase64 s))⟩

/-- The `messages.map((message, index) => ...)` of `signLedgerTransactions`,
carried out left to right starting at position `i`; a thrown error aborts the
whole map.  Each prepared option is kept next to its source message because
the signing loop reads both at the same index. -/
def prepareAllAux (env : Ext) (seqno : Nat) :
    Nat → List ApiDappTransfer → Except LedgerError (List (PreparedOption × ApiDappTransfer))
  | _, [] => Except.ok []
  | i, message :: rest =>
      match prepareMessage env seqno i message with
      | Except.error e => Except.error e
      | Except.ok p =>
          match prepareAllAux env seqno (i + 1) rest with
          | Except.error e => Except.error e
          | Except.ok rs => Except.ok ((p, message) :: rs)

/-- `preparedOptions` for a whole batch, indexed from `0`. -/
def prepareAll (env : Ext) (seqno : Nat) (messages : List ApiDappTransfer) :
    Except LedgerError (List (PreparedOption × ApiDappTransfer)) :=
  prepareAllAux env seqno 0 messages

/-- The `ApiSignedTransfer` pushed on a successful signature: the signed
base64, the assigned seqno and the display params taken from the original
message (`fee: 0n`, `slug: TONCOIN_SLUG`). -/
def mkSigned (fromAddress : String) (pm : PreparedOption × ApiDappTransfer)
    (base64 : String) : ApiSignedTransfer :=
  ⟨base64, pm.1.seqno, pm.2.amount, fromAddress, pm.2.toAddress,
    (match pm.2.payload with
     | some (ApiDappPayload.comment c) => some c
     | _ => none), 0, TONCOIN_SLUG⟩

/-- The signing `while` loop of `signLedgerTransactions`.  The loop guard is
`index < preparedOptions.length && attempt < attempts`; here the remaining
budget `attempts - attempt` is the structural fuel, and `attempt` is kept as
a separate counter because the outcome of the device call may differ from
attempt to attempt (`device` maps the attempt counter to the outcome of the
`signTransaction` call made on that iteration).  A success appends the signed
transfer and advances `index`; an error with the user-declined status code
throws `ApiUserRejectsError`; any other error is logged and retried with
`index` unchanged.  Both branches consume one unit of budget. -/
def signLoopAux (device : Nat → SignOutcome) (fromAddress : String)
    (pairs : List (PreparedOption × ApiDappTransfer)) :
    Nat → Nat → Nat → List ApiSignedTransfer → Except LedgerError (List ApiSignedTransfer)
  | 0, _, _, acc => Except.ok acc
  | fuel + 1, index, attempt, acc =>
      match pairs[index]? with
      | none => Except.ok acc
      | some pm =>
          match device attempt with
          | SignOutcome.ok base64 =>
              signLoopAux device fromAddress pairs fuel (index + 1) (attempt + 1)
                (acc ++ [mkSigned fromAddress pm base64])
          | SignOutcome.err code =>
              if code = some CONDITIONS_OF_USE_NOT_SATISFIED then
                Except.error LedgerError.userRejected
              else
                signLoopAux device fromAddress pairs fuel index (attempt + 1) acc

/-- `if (!seqno) { seqno = await callApi('getWalletSeqno', accountId); }`:
a missing or zero (falsy) supplied seqno is replaced by the externally
fetched one. -/
def resolveSeqno (seqno : Option Nat) (fetchedSeqno : Nat) : Nat :=
  match seqno with
  | some s => if s = 0 then fetchedSeqno else s
  | none => fetchedSeqno

/-- `signLedgerTransactions` after seqno resolution: prepare every message up
front, then run the signing loop with budget
`attempts = ATTEMPTS + preparedOptions.length` from `index = 0`,
`attempt = 0` and an empty result list. -/
def signLedgerTransactionsFrom (env : Ext) (device : Nat → SignOutcome)
    (fromAddress : String) (messages : List ApiDappTransfer) (seqno : Nat) :
    Except LedgerError (List ApiSignedTransfer) :=
  match prepareAll env seqno messages with
  | Except.error e => Except.error e
  | Except.ok pairs =>
      signLoopAux device fromAddress pairs (ATTEMPTS + pairs.length) 0 0 []

/-- `signLedgerTransactions(accountId, messages, seqno?)`.  `device` is the
oracle for the device calls, `fetchedSeqno` the value `getWalletSeqno` would
return, `fromAddress` the fetched wallet address. -/
def signLedgerTransactions (env : Ext) (device : Nat → SignOutcome)
    (fetchedSeqno : Nat) (fromAddress : String) (messages : List ApiDappTransfer)
    (seqno : Option Nat) : Except LedgerError (List ApiSignedTransfer) :=
  signLedgerTransactionsFrom env device fromAddress messages (resolveSeqno seqno fetchedSeqno)

/-- The exceptions `submitLedgerTransfer` / `buildLedgerTokenTransfer` can
throw before the signing step: an address-parse error,
`Error('Unsupported format')` and `Error('Invalid contract')`. -/
inductive SubmitError
  | invalidAddress
  | unsupportedFormat
  | invalidContract
deriving DecidableEq

/-- The fields of `ApiSubmitTransferOptions` the submitter reads (the
`accountId` and `password` are routing glue handled by the oracles). -/
structure SubmitOptions where
  toAddress : String
  amount : Nat
  tokenAddress : Option String
  comment : Option String
  fee : Nat
deriving DecidableEq

/-- Oracles and externally fetched state for `submitLedgerTransfer`:
the fetched wallet address and `{ seqno, balance }`, the `@ton/core` address
library (`parseFriendly` yields the self-declared bounceable flag together
with the `toString({ urlSafe: true, bounceable: DEFAULT_IS_BOUNCEABLE })`
normalized form; `none` models a thrown parse error), the comment validity
check, the two backend token-address resolvers, the comment-cell builder
`buildCommentPayload`, the `TOKEN_TRANSFER_TONCOIN_*` config constants and
the transfer expiration timestamp. -/
structure SubmitEnv where
  fromAddress : String
  seqno : Nat
  balance : Nat
  parseFriendly : String → Option (Bool × String)
  parseAddress : String → Option String
  isValidLedgerComment : String → Bool
  resolveTokenWalletAddress : String → String
  resolveTokenMinterAddress : String → String
  buildCommentCell : String → String
  tokenTransferTonAmount : Nat
  tokenTransferTonForwardAmount : Nat
  transferExpirationTime : Nat

/-- `buildLedgerTokenTransfer(network, tokenAddress, fromAddress, toAddress,
amount, comment?)`: resolve the token wallet, check the minter round-trips to
the requested token (`Error('Invalid contract')` otherwise), and build the
jetton-transfer payload; returns the substituted `(amount, toAddress,
payload)`. -/
def buildLedgerTokenTransfer (env : SubmitEnv) (tokenAddress : String)
    (toAddress : String) (amount : Nat) (comment : Option String) :
    Except SubmitError (Nat × String × Option TonPayloadFormat) :=
  let tokenWalletAddress := env.resolveTokenWalletAddress tokenAddress
  let realTokenAddress := env.resolveTokenMinterAddress tokenWalletAddress
  if tokenAddress ≠ realTokenAddress then Except.error SubmitError.invalidContract
  else
    match env.parseAddress toAddress, env.parseAddress env.fromAddress with
    | some destination, some responseDestination =>
        Except.ok (env.tokenTransferTonAmount, tokenWalletAddress,
          some (TonPayloadFormat.jettonTransfer 0 amount destination responseDestination
            none env.tokenTransferTonForwardAmount (comment.map env.buildCommentCell)))
    | _, _ => Except.error SubmitError.invalidAddress

/-- What `submitLedgerTransfer` has computed when it reaches its `try` block:
the (possibly token-wallet-substituted) destination string and amount, the
payload, the bounce flag, the send mode and the normalized display address. -/
structure SubmitState where
  toAddress : String
  amount : Nat
  payload : Option TonPayloadFormat
  bounce : Bool
  sendMode : Nat
  normalizedAddress : String
deriving DecidableEq

/-- The part of `submitLedgerTransfer` that runs before the `try` block:
parse the destination in friendly form, then either substitute the token
transfer (forcing `isBounceable = true`) or validate the plain comment, and
pick the send mode (`CARRY_ALL_REMAINING_BALANCE` only when no token is
involved and the amount equals the whole balance).  Every error thrown here
propagates to the caller. -/
def submitPrep (env : SubmitEnv) (o : SubmitOptions) : Except SubmitError SubmitState :=
  match env.parseFriendly o.toAddress with
  | none => Except.error SubmitError.invalidAddress
  | some parsed =>
      match o.tokenAddress with
      | some tokenAddress =>
          match buildLedgerTokenTransfer env tokenAddress o.toAddress o.amount o.comment with
          | Except.error e => Except.error e
          | Except.ok (amount, toAddress, payload) =>
              Except.ok ⟨toAddress, amount, payload, true,
                SendMode_PAY_GAS_SEPARATELY + SendMode_IGNORE_ERRORS, parsed.2⟩
      | none =>
          match o.comment with
          | some comment =>
              if env.isValidLedgerComment comment then
                Except.ok ⟨o.toAddress, o.amount, some (TonPayloadFormat.comment comment),
                  parsed.1,
                  (if env.balance = o.amount then SendMode_CARRY_ALL_REMAINING_BALANCE
                   else SendMode_PAY_GAS_SEPARATELY + SendMode_IGNORE_ERRORS), parsed.2⟩
              else Except.error SubmitError.unsupportedFormat
          | none =>
              Except.ok ⟨o.toAddress, o.amount, none, parsed.1,
                (if env.balance = o.amount then SendMode_CARRY_ALL_REMAINING_BALANCE
                 else SendMode_PAY_GAS_SEPARATELY + SendMode_IGNORE_ERRORS), parsed.2⟩

/-- Outcome of the `tonTransport.signTransaction` call in
`submitLedgerTransfer` (classified only as success or thrown error there). -/
inductive SignResult
  | ok (base64 : String)
  | err
deriving DecidableEq

/-- `submitLedgerTransfer(options, slug, ...)`.  Everything inside the `try`
block — the final `Address.parse(toAddress)` of the request literal, the
device signing call and `sendSignedTransferMessage` — is caught on error,
logged and turned into an `undefined` result (`Except.ok none`); `broadcast`
returning `none` models a thrown broadcast error. -/
def submitLedgerTransfer (env : SubmitEnv) (o : SubmitOptions) (slug : String)
    (sign : PreparedOption → SignResult)
    (broadcast : ApiSignedTransfer → Option String) :
    Except SubmitError (Option String) :=
  match submitPrep env o with
  | Except.error e => Except.error e
  | Except.ok st =>
      match env.parseAddress st.toAddress with
      | none => Except.ok none
      | some toAddr =>
          match sign ⟨toAddr, st.sendMode, env.seqno, env.transferExpirationTime,
              st.bounce, st.amount, st.payload, none⟩ with
          | SignResult.err => Except.ok none
          | SignResult.ok base64 =>
              match broadcast ⟨base64, env.seqno, o.amount, env.fromAddress,
                  st.normalizedAddress, o.comment, o.fee, slug⟩ with
              | none => Except.ok none
              | some r => Except.ok (some r)

/-- A `LedgerWalletInfo` as built by `getLedgerWalletInfo` (the `driver`,
`deviceId` and `deviceName` fields read from the transport singleton are
connection metadata and are not modelled). -/
structure LedgerWalletInfo where
  index : Int
  address : String
  publicKey : String
  balance : Int
  version : String
deriving DecidableEq

/-- `getLedgerWalletInfo(network, accountIndex)`: derive the address and
public key on the device (`addressAt` oracle) and fetch the balance from the
backend (`balanceOf` oracle). -/
def getLedgerWalletInfo (addressAt : Int → String × String) (balanceOf : String → Int)
    (accountIndex : Int) : LedgerWalletInfo :=
  ⟨accountIndex, (addressAt accountIndex).1, (addressAt accountIndex).2,
    balanceOf (addressAt accountIndex).1, VERSION⟩

/-- The `while (true)` scan of `getNextLedgerWallets`, with an explicit fuel
(`none` = the scan did not finish within the fuel): skip already-imported
addresses, record and continue past nonzero balances, and at the first
not-skipped zero balance record it only when nothing has been recorded yet,
then stop. -/
def getNextLedgerWalletsAux (addressAt : Int → String × String) (balanceOf : String → Int)
    (alreadyImportedAddresses : List String) :
    Nat → Int → List LedgerWalletInfo → Option (List LedgerWalletInfo)
  | 0, _, _ => none
  | fuel + 1, index, result =>
      let walletInfo := getLedgerWalletInfo addressAt balanceOf index
      if alreadyImportedAddresses.contains walletInfo.address then
        getNextLedgerWalletsAux addressAt balanceOf alreadyImportedAddresses fuel
          (index + 1) result
      else if walletInfo.balance ≠ 0 then
        getNextLedgerWalletsAux addressAt balanceOf alreadyImportedAddresses fuel
          (index + 1) (result ++ [walletInfo])
      else if result.isEmpty then some (result ++ [walletInfo])
      else some result

/-- `getNextLedgerWallets(network, lastExistingIndex = -1,
alreadyImportedAddresses = [])`: scan upward from `lastExistingIndex + 1`
with an empty result list. -/
def getNextLedgerWallets (addressAt : Int → String × String) (balanceOf : String → Int)
    (lastExistingIndex : Int) (alreadyImportedAddresses : List String) (fuel : Nat) :
    Option (List LedgerWalletInfo) :=
  getNextLedgerWalletsAux addressAt balanceOf alreadyImportedAddresses fuel
    (lastExistingIndex + 1) []

/-- A USB/HID device as seen by `TransportWebHID.list()` /
`TransportWebUSB.list()`. -/
structure Device where
  opened : Bool
  id : String
deriving DecidableEq

/-- The transport value `connectLedger` ends up with, tagged by which library
call produced it. -/
inductive Transport
  | hidWrap (d : Device)
  | hidOpen (d : Device)
  | usbOpenConnected (d : Device)
  | usbRequest
  | usbOpen (d : Device)
deriving DecidableEq

/-- `Error('Failed to connect')` thrown by `connectHID` / `connectUSB` after
exhausting their attempts. -/
inductive ConnectError
  | connectionFailed
deriving DecidableEq

/-- Environment for `connectLedger`: which transport kinds the browser
supports, the first device returned by `list()` on each attempt (`none`
triggers the `create()` prompt, a pause and a retry) and the result of
`TransportWebUSB.openConnected()` for an already-opened USB device. -/
structure ConnectEnv where
  hidSupported : Bool
  usbSupported : Bool
  hidList : Nat → Option Device
  usbList : Nat → Option Device
  usbOpenConnectedResult : Option Device

/-- The `for (let i = 0; i < ATTEMPTS; i++)` loop of `connectHID`, on the
remaining attempt count: no device listed means prompt, pause and retry; an
already-opened device is wrapped (`new TransportWebHID(device)`), otherwise
the device is opened. -/
def connectHIDAux (list : Nat → Option Device) : Nat → Nat → Except ConnectError Transport
  | 0, _ => Except.error ConnectError.connectionFailed
  | fuel + 1, i =>
      match list i with
      | none => connectHIDAux list fuel (i + 1)
      | some device =>
          if device.opened then Except.ok (Transport.hidWrap device)
          else Except.ok (Transport.hidOpen device)

/-- `connectHID()`. -/
def connectHID (cenv : ConnectEnv) : Except ConnectError Transport :=
  connectHIDAux cenv.hidList ATTEMPTS 0

/-- The `for (let i = 0; i < ATTEMPTS; i++)` loop of `connectUSB`: for an
already-opened device, `openConnected() ?? request()`; otherwise open it. -/
def connectUSBAux (list : Nat → Option Device) (openConnectedResult : Option Device) :
    Nat → Nat → Except ConnectError Transport
  | 0, _ => Except.error ConnectError.connectionFailed
  | fuel + 1, i =>
      match list i with
      | none => connectUSBAux list openConnectedResult fuel (i + 1)
      | some device =>
          if device.opened then
            match openConnectedResult with
            | some d2 => Except.ok (Transport.usbOpenConnected d2)
            | none => Except.ok Transport.usbRequest
          else Except.ok (Transport.usbOpen device)

/-- `connectUSB()`. -/
def connectUSB (cenv : ConnectEnv) : Except ConnectError Transport :=
  connectUSBAux cenv.usbList cenv.usbOpenConnectedResult ATTEMPTS 0

/-- The semantic outcome of `connectLedger()` (the source returns `false` on
both failure paths but logs / reaches them distinctly: the unsupported-kinds
early return versus the caught `Error('Failed to connect')`). -/
inductive ConnectOutcome
  | success (t : Transport)
  | unsupportedEnvironment
  | connectionFailed
deriving DecidableEq

/-- `connectLedger()`: probe HID support first, else USB support, else fail
with the unsupported-environment outcome; a thrown connect error is caught
and becomes the connection-failed outcome. -/
def connectLedger (cenv : ConnectEnv) : ConnectOutcome :=
  if cenv.hidSupported then
    match connectHID cenv with
    | Except.ok t => ConnectOutcome.success t
    | Except.error _ => ConnectOutcome.connectionFailed
  else if cenv.usbSupported then
    match connectUSB cenv with
    | Except.ok t => ConnectOutcome.success t
    | Except.error _ => ConnectOutcome.connectionFailed
  else ConnectOutcome.unsupportedEnvironment

/-- `connectLedger`'s actual boolean return value. -/
def connectLedgerBool (cenv : ConnectEnv) : Bool :=
  match connectLedger cenv with
  | ConnectOutcome.success _ => true
  | _ => false

/-! ### Helper lemmas -/

lemma prepareMessage_seqno (env : Ext) (s i : Nat) (m : ApiDappTransfer)
    (p : PreparedOption) (h : prepareMessage env s i m = Except.ok p) :
    p.seqno = s + i := by
  unfold prepareMessage at h
  cases hn : normalizePayload env m with
  | error e => rw [hn] at h; cases h
  | ok bp =>
      obtain ⟨b, pl⟩ := bp
      rw [hn] at h
      cases hp : env.parseAddress m.toAddress with
      | none => rw [hp] at h; cases h
      | some toAddr =>
          rw [hp] at h
          cases h
          rfl

lemma prepareAllAux_spec (env : Ext) (s : Nat) :
    ∀ (msgs : List ApiDappTransfer) (i : Nat)
      (pairs : List (PreparedOption × ApiDappTransfer)),
      prepareAllAux env s i msgs = Except.ok pairs →
      pairs.map (fun p => p.1.seqno) = List.range' (s + i) msgs.length ∧
        pairs.length = msgs.length ∧ pairs.map (fun p => p.2) = msgs := by
  intro msgs
  induction msgs with
  | nil =>
      intro i pairs h
      unfold prepareAllAux at h
      cases h
      simp [List.range']
  | cons m rest ih =>
      intro i pairs h
      unfold prepareAllAux at h
      cases hm : prepareMessage env s i m with
      | error e => rw [hm] at h; cases h
      | ok p =>
          rw [hm] at h
          cases hr : prepareAllAux env s (i + 1) rest with
          | error e => rw [hr] at h; cases h
          | ok rs =>
              rw [hr] at h
              cases h
              obtain ⟨h1, h2, h3⟩ := ih (i + 1) rs hr
              refine ⟨?_, by simp [h2], by simp [h3]⟩
              simp only [List.map_cons, List.length_cons, List.range']
              rw [prepareMessage_seqno env s i m p hm, h1]
              have : s + i + 1 = s + (i + 1) := by omega
              rw [this]

lemma prepareAll_spec (env : Ext) (s : Nat) (msgs : List ApiDappTransfer)
    (pairs : List (PreparedOption × ApiDappTransfer))
    (h : prepareAll env s msgs = Except.ok pairs) :
    pairs.map (fun p => p.1.seqno) = List.range' s msgs.length ∧
      pairs.length = msgs.length := by
  obtain ⟨h1, h2, _⟩ := prepareAllAux_spec env s msgs 0 pairs h
  exact ⟨by simpa using h1, h2⟩

/-- Dropping at an in-range position exposes the head element. -/
lemma map_drop_cons {α β : Type} (f : α → β) (l : List α) (index : Nat)
    (h : index < l.length) :
    (l.drop index).map f = f l[index] :: (l.drop (index + 1)).map f := by
  rw [List.drop_eq_getElem_cons h]
  rfl

/-- If every attempt from `attempt` on succeeds, except possibly attempt `t`
which may also fail with a non-rejection error, the loop signs every
remaining item (one unit of extra budget pays for the one possible retry). -/
lemma signLoopAux_ok_except_one (device : Nat → SignOutcome) (fa : String)
    (pairs : List (PreparedOption × ApiDappTransfer)) (t : Nat)
    (hdev : ∀ n, n ≠ t → ∃ b, device n = SignOutcome.ok b)
    (hdevt : (∃ b, device t = SignOutcome.ok b) ∨
      (∃ c, device t = SignOutcome.err c ∧ c ≠ some CONDITIONS_OF_USE_NOT_SATISFIED)) :
    ∀ (fuel index attempt : Nat) (acc : List ApiSignedTransfer),
      pairs.length - index + (if attempt ≤ t then 1 else 0) ≤ fuel →
      ∃ out, signLoopAux device fa pairs fuel index attempt acc = Except.ok out ∧
        out.map (fun x => x.seqno)
          = acc.map (fun x => x.seqno) ++ (pairs.drop index).map (fun p => p.1.seqno) := by
  intro fuel
  induction fuel with
  | zero =>
      intro index attempt acc hfuel
      by_cases hat : attempt ≤ t
      · simp only [if_pos hat] at hfuel; omega
      · simp only [if_neg hat] at hfuel
        have hle : pairs.length ≤ index := by omega
        refine ⟨acc, rfl, ?_⟩
        rw [List.drop_eq_nil_iff.mpr hle]
        simp
  | succ fuel ih =>
      intro index attempt acc hfuel
      by_cases hidx : index < pairs.length
      · have hpm : pairs[index]? = some pairs[index] := List.getElem?_eq_getElem hidx
        have hstep : (∃ b, device attempt = SignOutcome.ok b) ∨
            (attempt = t ∧ ∃ c, device attempt = SignOutcome.err c ∧
              c ≠ some CONDITIONS_OF_USE_NOT_SATISFIED) := by
          by_cases hat : attempt = t
          · subst hat
            rcases hdevt with h | h
            · exact Or.inl h
            · exact Or.inr ⟨rfl, h⟩
          · exact Or.inl (hdev attempt hat)
        rcases hstep with ⟨b, hb⟩ | ⟨hat, c, hc, hcne⟩
        · have hbound : pairs.length - (index + 1) + (if attempt + 1 ≤ t then 1 else 0) ≤ fuel := by
            by_cases h1 : attempt + 1 ≤ t
            · rw [if_pos h1]
              rw [if_pos (by omega : attempt ≤ t)] at hfuel
              omega
            · rw [if_neg h1]
              by_cases h2 : attempt ≤ t
              · rw [if_pos h2] at hfuel; omega
              · rw [if_neg h2] at hfuel; omega
          obtain ⟨out, hout, hmap⟩ := ih (index + 1) (attempt + 1)
            (acc ++ [mkSigned fa pairs[index] b]) hbound
          refine ⟨out, ?_, ?_⟩
          · simp only [signLoopAux, hpm, hb]
            exact hout
          · rw [hmap, map_drop_cons _ pairs index hidx]
            simp [mkSigned]
        · have hbound : pairs.length - index + (if attempt + 1 ≤ t then 1 else 0) ≤ fuel := by
            rw [if_neg (by omega : ¬ (attempt + 1 ≤ t))]
            rw [if_pos (by omega : attempt ≤ t)] at hfuel
            omega
          obtain ⟨out, hout, hmap⟩ := ih index (attempt + 1) acc hbound
          refine ⟨out, ?_, hmap⟩
          simp only [signLoopAux, hpm, hc, if_neg hcne]
          exact hout
      · refine ⟨acc, ?_, ?_⟩
        · have hnone : pairs[index]? = none := List.getElem?_eq_none (by omega)
          simp [signLoopAux, hnone]
        · rw [List.drop_eq_nil_iff.mpr (by omega)]
          simp

/-- A signing attempt that fails with the user-declined status code aborts
the loop immediately with `userRejected`, from any loop state. -/
lemma signLoopAux_reject (device : Nat → SignOutcome) (fa : String)
    (pairs : List (PreparedOption × ApiDappTransfer)) (fuel index attempt : Nat)
    (acc : List ApiSignedTransfer)
    (hrej : device attempt = SignOutcome.err (some CONDITIONS_OF_USE_NOT_SATISFIED))
    (hidx : index < pairs.length) (hfuel : 0 < fuel) :
    signLoopAux device fa pairs fuel index attempt acc
      = Except.error LedgerError.userRejected := by
  cases fuel with
  | zero => omega
  | succ fuel =>
      have hpm : pairs[index]? = some pairs[index] := List.getElem?_eq_getElem hidx
      simp [signLoopAux, hpm, hrej]

/-- The loop consults the device only on the attempts inside its budget
window: two devices agreeing there drive it to the same result. -/
lemma signLoopAux_device_congr (device device' : Nat → SignOutcome) (fa : String)
    (pairs : List (PreparedOption × ApiDappTransfer)) :
    ∀ (fuel index attempt : Nat) (acc : List ApiSignedTransfer),
      (∀ n, attempt ≤ n → n < attempt + fuel → device n = device' n) →
      signLoopAux device fa pairs fuel index attempt acc
        = signLoopAux device' fa pairs fuel index attempt acc := by
  intro fuel
  induction fuel with
  | zero => intro index attempt acc _; rfl
  | succ fuel ih =>
      intro index attempt acc hagree
      have hd : device attempt = device' attempt :=
        hagree attempt (le_refl attempt) (by omega)
      cases hpm : pairs[index]? with
      | none => simp [signLoopAux, hpm]
      | some pm =>
          have hrest : ∀ n, attempt + 1 ≤ n → n < attempt + 1 + fuel → device n = device' n := by
            intro n h1 h2
            exact hagree n (by omega) (by omega)
          cases hdo : device attempt with
          | ok b =>
              simp only [signLoopAux, hpm, hdo, ← hd]
              exact ih (index + 1) (attempt + 1) (acc ++ [mkSigned fa pm b]) hrest
          | err c =>
              by_cases hcr : c = some CONDITIONS_OF_USE_NOT_SATISFIED
              · simp [signLoopAux, hpm, hdo, ← hd, hcr]
              · simp only [signLoopAux, hpm, hdo, ← hd, if_neg hcr]
                exact ih index (attempt + 1) acc hrest

/-- Whatever the device does, the loop returns either `userRejected` or a
list of the items signed so far, whose seqnos are the corresponding prefix of
the assigned seqnos. -/
lemma signLoopAux_prefix (device : Nat → SignOutcome) (fa : String)
    (pairs : List (PreparedOption × ApiDappTransfer)) :
    ∀ (fuel index attempt : Nat) (acc : List ApiSignedTransfer),
      acc.map (fun x => x.seqno) = (pairs.map (fun p => p.1.seqno)).take index →
      index ≤ pairs.length →
      (∃ out j, signLoopAux device fa pairs fuel index attempt acc = Except.ok out ∧
          index ≤ j ∧ j ≤ pairs.length ∧
          out.map (fun x => x.seqno) = (pairs.map (fun p => p.1.seqno)).take j) ∨
        signLoopAux device fa pairs fuel index attempt acc
          = Except.error LedgerError.userRejected := by
  intro fuel
  induction fuel with
  | zero =>
      intro index attempt acc hacc hle
      exact Or.inl ⟨acc, index, rfl, le_refl index, hle, hacc⟩
  | succ fuel ih =>
      intro index attempt acc hacc hle
      by_cases hidx : index < pairs.length
      · have hpm : pairs[index]? = some pairs[index] := List.getElem?_eq_getElem hidx
        cases hdo : device attempt with
        | ok b =>
            have hacc' : (acc ++ [mkSigned fa pairs[index] b]).map (fun x => x.seqno)
                = (pairs.map (fun p => p.1.seqno)).take (index + 1) := by
              have hidx' : index < (pairs.map (fun p => p.1.seqno)).length := by
                simpa using hidx
              rw [List.take_succ, List.getElem?_eq_getElem hidx']
              simp [hacc, mkSigned]
            rcases ih (index + 1) (attempt + 1) (acc ++ [mkSigned fa pairs[index] b])
                hacc' (by omega) with ⟨out, j, hout, hj1, hj2, hjm⟩ | hout
            · refine Or.inl ⟨out, j, ?_, by omega, hj2, hjm⟩
              simp only [signLoopAux, hpm, hdo]
              exact hout
            · refine Or.inr ?_
              simp only [signLoopAux, hpm, hdo]
              exact hout
        | err c =>
            by_cases hcr : c = some CONDITIONS_OF_USE_NOT_SATISFIED
            · refine Or.inr ?_
              simp [signLoopAux, hpm, hdo, hcr]
            · rcases ih index (attempt + 1) acc hacc hle with
                ⟨out, j, hout, hj1, hj2, hjm⟩ | hout
              · refine Or.inl ⟨out, j, ?_, hj1, hj2, hjm⟩
                simp only [signLoopAux, hpm, hdo, if_neg hcr]
                exact hout
              · refine Or.inr ?_
                simp only [signLoopAux, hpm, hdo, if_neg hcr]
                exact hout
      · have hnone : pairs[index]? = none := List.getElem?_eq_none (by omega)
        refine Or.inl ⟨acc, index, ?_, le_refl index, hle, hacc⟩
        simp [signLoopAux, hnone]

/-! ### Concrete example inputs for witnesses -/

/-- Oracle environment with trivially succeeding library calls, a
comment check that accepts everything, and non-friendly addresses. -/
def extA : Ext :=
  ⟨fun _ => true, fun _ => false, fun _ => false, false, fun a => some a,
    fun c => c, fun c => c, 111⟩

/-- A two-message batch with no payloads. -/
def msgs0 : List ApiDappTransfer :=
  [⟨"to0", 7, none, none⟩, ⟨"to1", 8, none, none⟩]

/-- `preparedOptions` of `msgs0` under `extA` at starting seqno `5`. -/
def pairs0 : List (PreparedOption × ApiDappTransfer) :=
  [(⟨"to0", 3, 5, 111, false, 7, none, none⟩, ⟨"to0", 7, none, none⟩),
   (⟨"to1", 3, 6, 111, false, 8, none, none⟩, ⟨"to1", 8, none, none⟩)]

/-- A device that signs every attempt. -/
def devOk : Nat → SignOutcome := fun _ => SignOutcome.ok "sig"

/-- A device on which the user declines every attempt. -/
def devRej : Nat → SignOutcome :=
  fun _ => SignOutcome.err (some CONDITIONS_OF_USE_NOT_SATISFIED)

/-- A device with one transient (non-rejection) failure on attempt `0` that
signs every other attempt. -/
def devFlaky : Nat → SignOutcome :=
  fun n => if n = 0 then SignOutcome.err (some 1) else SignOutcome.ok "sig"

/-! ### Claims -/

/-- C1: for every batch whose payloads all normalize and every starting
sequence number `S`, the batch signer assigns request `i` the sequence number
`S + i` (the prepared seqnos are `range' S N`), and a run in which every
signing call succeeds returns exactly `N` signed transfers whose sequence
numbers are `S, S+1, …, S+N-1` in that order. -/
theorem signLedgerTransactions_contiguous_seqnos (env : Ext)
    (device : Nat → SignOutcome) (fromAddress : String)
    (messages : List ApiDappTransfer) (S : Nat)
    (pairs : List (PreparedOption × ApiDappTransfer))
    (hprep : prepareAll env S messages = Except.ok pairs)
    (hdev : ∀ n, ∃ b, device n = SignOutcome.ok b) :
    pairs.map (fun p => p.1.seqno) = List.range' S messages.length ∧
    ∃ out, signLedgerTransactionsFrom env device fromAddress messages S = Except.ok out ∧
      out.length = messages.length ∧
      out.map (fun x => x.seqno) = List.range' S messages.length := by
  obtain ⟨h1, h2⟩ := prepareAll_spec env S messages pairs hprep
  refine ⟨h1, ?_⟩
  obtain ⟨out, hout, hmap⟩ := signLoopAux_ok_except_one device fromAddress pairs 0
    (fun n _ => hdev n) (Or.inl (hdev 0)) (ATTEMPTS + pairs.length) 0 0 []
    (by rw [if_pos (Nat.le_refl 0)]; unfold ATTEMPTS; omega)
  refine ⟨out, ?_, ?_, ?_⟩
  · unfold signLedgerTransactionsFrom
    rw [hprep]
    exact hout
  · have hl := congrArg List.length hmap
    simpa [h2] using hl
  · simpa [h1, h2] using hmap

/-- Witness for C1: a concrete two-message batch starting at seqno `5` on an
always-signing device. -/
theorem signLedgerTransactions_contiguous_seqnos_witness :
    pairs0.map (fun p => p.1.seqno) = List.range' 5 msgs0.length ∧
    ∃ out, signLedgerTransactionsFrom extA devOk "from0" msgs0 5 = Except.ok out ∧
      out.length = msgs0.length ∧
      out.map (fun x => x.seqno) = List.range' 5 msgs0.length :=
  signLedgerTransactions_contiguous_seqnos extA devOk "from0" msgs0 5 pairs0
    rfl (fun _ => ⟨"sig", rfl⟩)

/-- C2: a signing attempt failing with the device's user-declined status code
aborts the batch immediately with a `UserRejected` failure from any in-flight
loop state (no later item is signed, nothing is retried, and no partial
result list is returned), and hence the whole batch signer errors. -/
theorem signLedgerTransactions_user_rejected (env : Ext) (device : Nat → SignOutcome)
    (fa : String) (messages : List ApiDappTransfer) (S : Nat)
    (pairs : List (PreparedOption × ApiDappTransfer))
    (fuel index attempt : Nat) (acc : List ApiSignedTransfer)
    (hprep : prepareAll env S messages = Except.ok pairs)
    (hrej : device attempt = SignOutcome.err (some CONDITIONS_OF_USE_NOT_SATISFIED))
    (hrej0 : device 0 = SignOutcome.err (some CONDITIONS_OF_USE_NOT_SATISFIED))
    (hidx : index < pairs.length) (hfuel : 0 < fuel) (hne : messages ≠ []) :
    signLoopAux device fa pairs fuel index attempt acc
      = Except.error LedgerError.userRejected ∧
    signLedgerTransactionsFrom env device fa messages S
      = Except.error LedgerError.userRejected := by
  refine ⟨signLoopAux_reject device fa pairs fuel index attempt acc hrej hidx hfuel, ?_⟩
  unfold signLedgerTransactionsFrom
  rw [hprep]
  have hlen : pairs.length = messages.length := (prepareAll_spec env S messages pairs hprep).2
  have h0 : 0 < pairs.length := by
    rw [hlen]
    exact List.length_pos.mpr hne
  exact signLoopAux_reject device fa pairs (ATTEMPTS + pairs.length) 0 0 [] hrej0 h0
    (by unfold ATTEMPTS; omega)

/-- Witness for C2: a concrete batch on a device on which the user declines. -/
theorem signLedgerTransactions_user_rejected_witness :
    signLoopAux devRej "from0" pairs0 3 0 0 [] = Except.error LedgerError.userRejected ∧
    signLedgerTransactionsFrom extA devRej "from0" msgs0 5
      = Except.error LedgerError.userRejected :=
  signLedgerTransactions_user_rejected extA devRej "from0" msgs0 5 pairs0 3 0 0 []
    rfl rfl rfl (by decide) (by decide) (by decide)

/-- C3: a non-rejection signing failure keeps the same item index and retries
it on the next iteration while consuming one unit of the shared budget; and
when the device fails (non-rejection) on at most the single attempt `t` and
signs every other attempt, the batch still returns all `N` items with the
same contiguous sequence numbers — the retry is invisible in the output. -/
theorem signLedgerTransactions_transient_retry (env : Ext) (device : Nat → SignOutcome)
    (fa : String) (messages : List ApiDappTransfer) (S : Nat)
    (pairs : List (PreparedOption × ApiDappTransfer)) (t : Nat) (c : Option Nat)
    (hprep : prepareAll env S messages = Except.ok pairs)
    (ht : device t = SignOutcome.err c)
    (hc : c ≠ some CONDITIONS_OF_USE_NOT_SATISFIED)
    (hok : ∀ n, n ≠ t → ∃ b, device n = SignOutcome.ok b) :
    (∀ fuel index acc, index < pairs.length →
      signLoopAux device fa pairs (fuel + 1) index t acc
        = signLoopAux device fa pairs fuel index (t + 1) acc) ∧
    ∃ out, signLedgerTransactionsFrom env device fa messages S = Except.ok out ∧
      out.length = messages.length ∧
      out.map (fun x => x.seqno) = List.range' S messages.length := by
  obtain ⟨h1, h2⟩ := prepareAll_spec env S messages pairs hprep
  constructor
  · intro fuel index acc hidx
    have hpm : pairs[index]? = some pairs[index] := List.getElem?_eq_getElem hidx
    simp [signLoopAux, hpm, ht, if_neg hc]
  · obtain ⟨out, hout, hmap⟩ := signLoopAux_ok_except_one device fa pairs t hok
      (Or.inr ⟨c, ht, hc⟩) (ATTEMPTS + pairs.length) 0 0 []
      (by by_cases h0 : (0:Nat) ≤ t
          · rw [if_pos h0]; unfold ATTEMPTS; omega
          · rw [if_neg h0]; unfold ATTEMPTS; omega)
    refine ⟨out, ?_, ?_, ?_⟩
    · unfold signLedgerTransactionsFrom
      rw [hprep]
      exact hout
    · have hl := congrArg List.length hmap
      simpa [h2] using hl
    · simpa [h1, h2] using hmap

/-- Witness for C3: a device failing transiently on attempt 0 only still
signs the whole concrete two-message batch. -/
theorem signLedgerTransactions_transient_retry_witness :
    (∀ fuel index acc, index < pairs0.length →
      signLoopAux devFlaky "from0" pairs0 (fuel + 1) index 0 acc
        = signLoopAux devFlaky "from0" pairs0 fuel index (0 + 1) acc) ∧
    ∃ out, signLedgerTransactionsFrom extA devFlaky "from0" msgs0 5 = Except.ok out ∧
      out.length = msgs0.length ∧
      out.map (fun x => x.seqno) = List.range' 5 msgs0.length :=
  signLedgerTransactions_transient_retry extA devFlaky "from0" msgs0 5 pairs0 0 (some 1)
    rfl rfl (by decide)
    (fun n hn => ⟨"sig", by simp [devFlaky, hn]⟩)

/-- C4: the batch signer's result depends on the device outcomes of at most
`ATTEMPTS + N` attempts (the fixed base budget plus the batch size); a loop
with exhausted budget returns the items signed so far; and every run either
returns a (possibly shorter) list whose seqnos are a prefix of the assigned
contiguous seqnos, aborts with `userRejected`, or fails the up-front payload
pre-check. -/
theorem signLedgerTransactions_attempt_budget (env : Ext)
    (device device' : Nat → SignOutcome) (fa : String)
    (messages : List ApiDappTransfer) (S : Nat)
    (hagree : ∀ n, n < ATTEMPTS + messages.length → device n = device' n) :
    signLedgerTransactionsFrom env device fa messages S
      = signLedgerTransactionsFrom env device' fa messages S ∧
    (∀ pairs index attempt acc, signLoopAux device fa pairs 0 index attempt acc
      = Except.ok acc) ∧
    ((∃ out, signLedgerTransactionsFrom env device fa messages S = Except.ok out ∧
        out.map (fun x => x.seqno) = (List.range' S messages.length).take out.length) ∨
      signLedgerTransactionsFrom env device fa messages S
        = Except.error LedgerError.userRejected ∨
      ∃ e, prepareAll env S messages = Except.error e ∧
        signLedgerTransactionsFrom env device fa messages S = Except.error e) := by
  refine ⟨?_, fun pairs index attempt acc => rfl, ?_⟩
  · unfold signLedgerTransactionsFrom
    cases hp : prepareAll env S messages with
    | error e => rfl
    | ok pairs =>
        have hlen : pairs.length = messages.length := (prepareAll_spec env S messages pairs hp).2
        exact signLoopAux_device_congr device device' fa pairs (ATTEMPTS + pairs.length) 0 0 []
          (fun n hn1 hn2 => hagree n (by omega))
  · unfold signLedgerTransactionsFrom
    cases hp : prepareAll env S messages with
    | error e => exact Or.inr (Or.inr ⟨e, rfl, rfl⟩)
    | ok pairs =>
        obtain ⟨h1, h2⟩ := prepareAll_spec env S messages pairs hp
        rcases signLoopAux_prefix device fa pairs (ATTEMPTS + pairs.length) 0 0 []
            (by simp) (by omega) with ⟨out, j, hout, hj1, hj2, hjm⟩ | hout
        · refine Or.inl ⟨out, hout, ?_⟩
          rw [h1] at hjm
          have hlen : out.length = j := by
            have hl := congrArg List.length hjm
            simp [h2] at hl
            omega
          rw [hlen]
          exact hjm
        · exact Or.inr (Or.inl hout)

/-- Witness for C4: a device that goes dead after the concrete batch's
attempt budget of `ATTEMPTS + 2 = 12` drives the signer exactly as the
always-signing device does. -/
theorem signLedgerTransactions_attempt_budget_witness :
    signLedgerTransactionsFrom extA devOk "from0" msgs0 5
      = signLedgerTransactionsFrom extA
          (fun n => if n < 12 then SignOutcome.ok "sig" else SignOutcome.err none)
          "from0" msgs0 5 :=
  (signLedgerTransactions_attempt_budget extA devOk
      (fun n => if n < 12 then SignOutcome.ok "sig" else SignOutcome.err none)
      "from0" msgs0 5
      (fun n hn => by
        have h12 : n < 12 := by
          have : msgs0.length = 2 := by decide
          rw [this] at hn
          unfold ATTEMPTS at hn
          omega
        simp [devOk, h12])).1

/-- C9: a supplied starting sequence number `0` is treated as absent by the
falsy presence check, so the run is identical to supplying no sequence number
at all and uses the externally fetched seqno instead. -/
theorem signLedgerTransactions_zero_seqno_refetched (env : Ext)
    (device : Nat → SignOutcome) (fetchedSeqno : Nat) (fa : String)
    (messages : List ApiDappTransfer) :
    signLedgerTransactions env device fetchedSeqno fa messages (some 0)
      = signLedgerTransactions env device fetchedSeqno fa messages none ∧
    signLedgerTransactions env device fetchedSeqno fa messages (some 0)
      = signLedgerTransactionsFrom env device fa messages fetchedSeqno ∧
    resolveSeqno (some 0) fetchedSeqno = fetchedSeqno :=
  ⟨rfl, rfl, rfl⟩

/-! ### Account discovery (C5) -/

/-- Device-derivation oracle with three distinct addresses. -/
def exAddressAt : Int → String × String :=
  fun i => (if i = 0 then "a0" else if i = 1 then "a1" else "a2", "pk")

/-- Backend balances `5, 0, 3` for the three addresses. -/
def exBalanceOf : String → Int :=
  fun a => if a = "a0" then 5 else if a = "a1" then 0 else 3

/-- Backend reporting a zero balance everywhere. -/
def exZeroBalanceOf : String → Int := fun _ => 0

/-- The scan never returns an empty list: a zero-balance wallet is recorded
whenever nothing has been recorded yet. -/
lemma getNextLedgerWalletsAux_ne_nil (addressAt : Int → String × String)
    (balanceOf : String → Int) (imported : List String) :
    ∀ (fuel : Nat) (index : Int) (result l : List LedgerWalletInfo),
      getNextLedgerWalletsAux addressAt balanceOf imported fuel index result = some l →
      l ≠ [] := by
  intro fuel
  induction fuel with
  | zero => intro index result l h; exact Option.noConfusion h
  | succ fuel ih =>
      intro index result l h
      simp only [getNextLedgerWalletsAux] at h
      split at h
      · exact ih (index + 1) result l h
      · split at h
        · exact ih (index + 1) (result ++ [getLedgerWalletInfo addressAt balanceOf index]) l h
        · split at h
          · cases h
            simp
          · cases h
            rename_i hne
            intro hnil
            rw [hnil] at hne
            simp at hne

/-- C5 counterexample: over consecutive balances `5, 0, 3` and an empty
already-imported list, `getNextLedgerWallets` returns only the first account
— not the first two as the claim states (the zero-balance address is *not*
recorded because a nonzero-balance account has already been recorded). -/
theorem getNextLedgerWallets_counterexample :
    getNextLedgerWallets exAddressAt exBalanceOf (-1) [] 10
      = some [getLedgerWalletInfo exAddressAt exBalanceOf 0] ∧
    getNextLedgerWallets exAddressAt exBalanceOf (-1) [] 10
      ≠ some [getLedgerWalletInfo exAddressAt exBalanceOf 0,
              getLedgerWalletInfo exAddressAt exBalanceOf 1] := by
  constructor
  · decide
  · decide

/-- C5 amended: over balances `5, 0, 3` with nothing imported the scan
returns exactly the first account (the terminating zero-balance address is
recorded only when nothing has been recorded yet); over a single zero-balance
address it returns exactly that one account; and a finishing scan never
returns an empty list. -/
theorem getNextLedgerWallets_amended :
    getNextLedgerWallets exAddressAt exBalanceOf (-1) [] 10
      = some [getLedgerWalletInfo exAddressAt exBalanceOf 0] ∧
    getNextLedgerWallets exAddressAt exZeroBalanceOf (-1) [] 10
      = some [getLedgerWalletInfo exAddressAt exZeroBalanceOf 0] ∧
    ∀ (addressAt : Int → String × String) (balanceOf : String → Int)
      (imported : List String) (fuel : Nat) (index : Int)
      (result l : List LedgerWalletInfo),
      getNextLedgerWalletsAux addressAt balanceOf imported fuel index result = some l →
      l ≠ [] := by
  refine ⟨by decide, by decide, ?_⟩
  intro addressAt balanceOf imported
  exact getNextLedgerWalletsAux_ne_nil addressAt balanceOf imported

/-- Witness for the amended C5: the concrete balances-`5, 0, 3` scan result
is nonempty. -/
theorem getNextLedgerWallets_amended_witness :
    [getLedgerWalletInfo exAddressAt exBalanceOf 0] ≠ [] :=
  getNextLedgerWallets_amended.2.2 exAddressAt exBalanceOf [] 10 0 []
    [getLedgerWalletInfo exAddressAt exBalanceOf 0] (by decide)

/-! ### Bounce flag and comment normalization (C6, C7) -/

/-- A concrete `tokens:transfer` message. -/
def msgTok : ApiDappTransfer :=
  ⟨"to0", 7, some (ApiDappPayload.tokensTransfer 1 2 "d" "r" none 3 none), none⟩

/-- Its normalized payload under `extA`. -/
def plTok : Option TonPayloadFormat :=
  some (TonPayloadFormat.jettonTransfer 1 2 "d" "r" none 3 none)

/-- Submit environment whose token resolvers round-trip `"tok"` and whose
library calls succeed. -/
def envS0 : SubmitEnv :=
  ⟨"from0", 4, 100, fun a => some (false, a), fun a => some a, fun _ => true,
    fun _ => "tw", fun _ => "tok", fun c => c, 300, 150, 111⟩

/-- A token transfer of token `"tok"`. -/
def oTok : SubmitOptions := ⟨"to0", 7, some "tok", none, 1⟩

/-- The submit state `submitPrep envS0 oTok` reaches. -/
def stTok : SubmitState :=
  ⟨"tw", 300, some (TonPayloadFormat.jettonTransfer 0 7 "to0" "from0" none 150 none),
    true, 3, "to0"⟩

/-- C6: every fungible (`tokens:transfer`) and non-fungible (`nft:transfer`)
payload normalizes with bounce flag `true` regardless of the address's
self-declared bounceable flag — in the batch signer's prepared request and in
the single-transfer submitter's token path alike. -/
theorem tokenAndNftTransfers_always_bounce (env : Ext) (msg : ApiDappTransfer)
    (b : Bool) (pl : Option TonPayloadFormat) (envS : SubmitEnv) (o : SubmitOptions)
    (tok : String) (st : SubmitState)
    (hpay : (∃ q a d r cp f fp, msg.payload
        = some (ApiDappPayload.tokensTransfer q a d r cp f fp)) ∨
      (∃ q nw r cp f fp, msg.payload = some (ApiDappPayload.nftTransfer q nw r cp f fp)))
    (hnorm : normalizePayload env msg = Except.ok (b, pl))
    (htok : o.tokenAddress = some tok)
    (hsub : submitPrep envS o = Except.ok st) :
    b = true ∧
    (∀ S i p, prepareMessage env S i msg = Except.ok p → p.bounce = true) ∧
    st.bounce = true := by
  have hb : b = true := by
    rcases hpay with ⟨q, a, d, r, cp, f, fp, hp⟩ | ⟨q, nw, r, cp, f, fp, hp⟩
    · simp only [normalizePayload, hp] at hnorm
      cases hd : env.parseAddress d with
      | none =>
          cases hr : env.parseAddress r <;> simp only [hd, hr] at hnorm <;>
            exact Except.noConfusion hnorm
      | some dst =>
          cases hr : env.parseAddress r with
          | none => simp only [hd, hr] at hnorm; exact Except.noConfusion hnorm
          | some rd =>
              simp only [hd, hr, Except.ok.injEq, Prod.mk.injEq] at hnorm
              exact hnorm.1.symm
    · simp only [normalizePayload, hp] at hnorm
      cases hd : env.parseAddress nw with
      | none =>
          cases hr : env.parseAddress r <;> simp only [hd, hr] at hnorm <;>
            exact Except.noConfusion hnorm
      | some no =>
          cases hr : env.parseAddress r with
          | none => simp only [hd, hr] at hnorm; exact Except.noConfusion hnorm
          | some rd =>
              simp only [hd, hr, Except.ok.injEq, Prod.mk.injEq] at hnorm
              exact hnorm.1.symm
  refine ⟨hb, ?_, ?_⟩
  · intro S i p hp2
    unfold prepareMessage at hp2
    rw [hnorm] at hp2
    cases hpa : env.parseAddress msg.toAddress with
    | none => rw [hpa] at hp2; exact Except.noConfusion hp2
    | some toAddr =>
        rw [hpa] at hp2
        cases hp2
        exact hb
  · unfold submitPrep at hsub
    cases hpf : envS.parseFriendly o.toAddress with
    | none => rw [hpf] at hsub; exact Except.noConfusion hsub
    | some parsed =>
        simp only [hpf, htok] at hsub
        cases hb2 : buildLedgerTokenTransfer envS tok o.toAddress o.amount o.comment with
        | error e => simp only [hb2] at hsub; exact Except.noConfusion hsub
        | ok tup =>
            obtain ⟨amount, toAddress, payload⟩ := tup
            simp only [hb2] at hsub
            cases hsub
            rfl

/-- Witness for C6 at a concrete token transfer, both in the batch
normalizer and in the submitter's token path. -/
theorem tokenAndNftTransfers_always_bounce_witness :
    true = true ∧
    (∀ S i p, prepareMessage extA S i msgTok = Except.ok p → p.bounce = true) ∧
    stTok.bounce = true :=
  tokenAndNftTransfers_always_bounce extA msgTok true plTok envS0 oTok "tok" stTok
    (Or.inl ⟨1, 2, "d", "r", none, 3, none, rfl⟩) rfl rfl rfl

/-- A concrete comment message. -/
def msgC : ApiDappTransfer := ⟨"to0", 7, some (ApiDappPayload.comment "hi"), none⟩

/-- A concrete plain comment transfer. -/
def oC : SubmitOptions := ⟨"to0", 7, none, some "hi", 1⟩

/-- C7: a comment passing the device validity check normalizes to a canonical
comment payload carrying the text unchanged (in the batch normalizer and in
the submitter); a comment failing the check makes normalization fail with the
Unsupported-format error and no signing request is built. -/
theorem comment_normalization (env : Ext) (msg : ApiDappTransfer) (c : String)
    (envS : SubmitEnv) (o : SubmitOptions) (slug : String)
    (sign : PreparedOption → SignResult) (broadcast : ApiSignedTransfer → Option String)
    (hpay : msg.payload = some (ApiDappPayload.comment c))
    (hto : o.tokenAddress = none) (hoc : o.comment = some c) :
    (env.isValidLedgerComment c = true →
      ∃ b, normalizePayload env msg = Except.ok (b, some (TonPayloadFormat.comment c))) ∧
    (env.isValidLedgerComment c = false →
      ∀ S i, prepareMessage env S i msg = Except.error LedgerError.unsupportedFormat) ∧
    (envS.isValidLedgerComment c = true →
      ∀ pf, envS.parseFriendly o.toAddress = some pf →
      ∃ st, submitPrep envS o = Except.ok st ∧
        st.payload = some (TonPayloadFormat.comment c)) ∧
    (envS.isValidLedgerComment c = false →
      ∀ pf, envS.parseFriendly o.toAddress = some pf →
      submitLedgerTransfer envS o slug sign broadcast
        = Except.error SubmitError.unsupportedFormat) := by
  refine ⟨?_, ?_, ?_, ?_⟩
  · intro hv
    refine ⟨(if env.isFriendly msg.toAddress then env.friendlyIsBounceable msg.toAddress
      else env.defaultIsBounceable), ?_⟩
    simp [normalizePayload, hpay, hv]
  · intro hv S _i
    unfold prepareMessage
    simp [normalizePayload, hpay, hv]
  · intro hv pf hpf
    refine ⟨⟨o.toAddress, o.amount, some (TonPayloadFormat.comment c), pf.1,
      (if envS.balance = o.amount then SendMode_CARRY_ALL_REMAINING_BALANCE
       else SendMode_PAY_GAS_SEPARATELY + SendMode_IGNORE_ERRORS), pf.2⟩, ?_, rfl⟩
    simp [submitPrep, hpf, hto, hoc, hv]
  · intro hv pf hpf
    simp [submitLedgerTransfer, submitPrep, hpf, hto, hoc, hv]

/-- Witness for C7: the valid comment `"hi"` normalizes unchanged. -/
theorem comment_normalization_witness :
    ∃ b, normalizePayload extA msgC = Except.ok (b, some (TonPayloadFormat.comment "hi")) :=
  (comment_normalization extA msgC "hi" envS0 oC "slug" (fun _ => SignResult.err)
    (fun _ => none) rfl rfl rfl).1 rfl

/-! ### Connecting (C8) -/

/-- `connectHID` exhausts its attempts when no device is ever listed inside
its attempt window. -/
lemma connectHIDAux_none (list : Nat → Option Device) :
    ∀ (fuel i : Nat), (∀ j, i ≤ j → j < i + fuel → list j = none) →
      connectHIDAux list fuel i = Except.error ConnectError.connectionFailed := by
  intro fuel
  induction fuel with
  | zero => intro i _; rfl
  | succ fuel ih =>
      intro i hnone
      have h0 : list i = none := hnone i (le_refl i) (by omega)
      simp only [connectHIDAux, h0]
      exact ih (i + 1) (fun j h1 h2 => hnone j (by omega) (by omega))

/-- `connectUSB` exhausts its attempts when no device is ever listed inside
its attempt window. -/
lemma connectUSBAux_none (list : Nat → Option Device) (ocr : Option Device) :
    ∀ (fuel i : Nat), (∀ j, i ≤ j → j < i + fuel → list j = none) →
      connectUSBAux list ocr fuel i = Except.error ConnectError.connectionFailed := by
  intro fuel
  induction fuel with
  | zero => intro i _; rfl
  | succ fuel ih =>
      intro i hnone
      have h0 : list i = none := hnone i (le_refl i) (by omega)
      simp only [connectUSBAux, h0]
      exact ih (i + 1) (fun j h1 h2 => hnone j (by omega) (by omega))

/-- C8: `connectLedger` probes HID first and falls back to USB; with neither
kind supported it fails with the unsupported-environment outcome, and when no
device ever becomes available within the fixed `ATTEMPTS` attempt window it
fails with the connection-failed outcome — it never loops forever. -/
theorem connectLedger_probe_order_and_bounded (cenv : ConnectEnv) :
    (cenv.hidSupported = false → cenv.usbSupported = false →
      connectLedger cenv = ConnectOutcome.unsupportedEnvironment) ∧
    (cenv.hidSupported = true →
      connectLedger cenv = (match connectHID cenv with
        | Except.ok t => ConnectOutcome.success t
        | Except.error _ => ConnectOutcome.connectionFailed)) ∧
    (cenv.hidSupported = true → (∀ i, i < ATTEMPTS → cenv.hidList i = none) →
      connectLedger cenv = ConnectOutcome.connectionFailed) ∧
    (cenv.hidSupported = false → cenv.usbSupported = true →
      (∀ i, i < ATTEMPTS → cenv.usbList i = none) →
      connectLedger cenv = ConnectOutcome.connectionFailed) := by
  refine ⟨?_, ?_, ?_, ?_⟩
  · intro h1 h2
    simp [connectLedger, h1, h2]
  · intro h1
    simp [connectLedger, h1]
  · intro h1 hnone
    have hfail : connectHID cenv = Except.error ConnectError.connectionFailed := by
      unfold connectHID
      exact connectHIDAux_none cenv.hidList ATTEMPTS 0 (fun j hj1 hj2 => hnone j (by omega))
    simp [connectLedger, h1, hfail]
  · intro h1 h2 hnone
    have hfail : connectUSB cenv = Except.error ConnectError.connectionFailed := by
      unfold connectUSB
      exact connectUSBAux_none cenv.usbList cenv.usbOpenConnectedResult ATTEMPTS 0
        (fun j hj1 hj2 => hnone j (by omega))
    simp [connectLedger, h1, h2, hfail]

/-- HID is supported but no device ever shows up. -/
def cenvNoDev : ConnectEnv := ⟨true, false, fun _ => none, fun _ => none, none⟩

/-- Witness for C8: the deviceless environment exhausts its attempts. -/
theorem connectLedger_probe_order_and_bounded_witness :
    connectLedger cenvNoDev = ConnectOutcome.connectionFailed :=
  (connectLedger_probe_order_and_bounded cenvNoDev).2.2.1 rfl (fun _ _ => rfl)

/-! ### Submitter error routing (C10) -/

/-- C10: in `submitLedgerTransfer`, errors raised before the `try` block — a
malformed destination, a token-minter mismatch, an invalid comment —
propagate to the caller as errors, while failures of the signing call or the
subsequent broadcast are caught and become an `undefined` (`none`) result. -/
theorem submitLedgerTransfer_error_routing (envS : SubmitEnv) (o : SubmitOptions)
    (slug : String) (sign : PreparedOption → SignResult)
    (broadcast : ApiSignedTransfer → Option String) (tok : String) (c : String)
    (st : SubmitState) :
    (envS.parseFriendly o.toAddress = none →
      submitLedgerTransfer envS o slug sign broadcast
        = Except.error SubmitError.invalidAddress) ∧
    ((∃ pf, envS.parseFriendly o.toAddress = some pf) → o.tokenAddress = some tok →
      tok ≠ envS.resolveTokenMinterAddress (envS.resolveTokenWalletAddress tok) →
      submitLedgerTransfer envS o slug sign broadcast
        = Except.error SubmitError.invalidContract) ∧
    ((∃ pf, envS.parseFriendly o.toAddress = some pf) → o.tokenAddress = none →
      o.comment = some c → envS.isValidLedgerComment c = false →
      submitLedgerTransfer envS o slug sign broadcast
        = Except.error SubmitError.unsupportedFormat) ∧
    (submitPrep envS o = Except.ok st → (∀ r, sign r = SignResult.err) →
      submitLedgerTransfer envS o slug sign broadcast = Except.ok none) ∧
    (submitPrep envS o = Except.ok st → (∀ m, broadcast m = none) →
      submitLedgerTransfer envS o slug sign broadcast = Except.ok none) := by
  refine ⟨?_, ?_, ?_, ?_, ?_⟩
  · intro h
    simp [submitLedgerTransfer, submitPrep, h]
  · rintro ⟨pf, hpf⟩ htok hne
    simp [submitLedgerTransfer, submitPrep, hpf, htok, buildLedgerTokenTransfer, hne]
  · rintro ⟨pf, hpf⟩ hto hoc hv
    simp [submitLedgerTransfer, submitPrep, hpf, hto, hoc, hv]
  · intro hst hsign
    simp only [submitLedgerTransfer, hst]
    cases hpa : envS.parseAddress st.toAddress with
    | none => simp [hpa]
    | some toAddr => simp [hpa, hsign]
  · intro hst hb
    simp only [submitLedgerTransfer, hst]
    cases hpa : envS.parseAddress st.toAddress with
    | none => simp [hpa]
    | some toAddr =>
        cases hs : sign ⟨toAddr, st.sendMode, envS.seqno, envS.transferExpirationTime,
            st.bounce, st.amount, st.payload, none⟩ with
        | err => simp [hpa, hs]
        | ok base64 => simp [hpa, hs, hb]

/-- Witness for C10: with a concrete token transfer that prepares
successfully, a failing signing call yields the `undefined` result. -/
theorem submitLedgerTransfer_error_routing_witness :
    submitLedgerTransfer envS0 oTok "slug" (fun _ => SignResult.err) (fun _ => none)
      = Except.ok none :=
  (submitLedgerTransfer_error_routing envS0 oTok "slug" (fun _ => SignResult.err)
    (fun _ => none) "tok" "hi" stTok).2.2.2.1 rfl (fun _ => rfl)

end MTW
